import Mathlib

/-!
# Schedule matching in the EdenFM radio dashboard

Shallow embedding of the show-schedule time-window matching algorithm
(`isShowOnAir` and its day-parsing helpers), translated from the
registration-analytics module and from `components/WhatsAppAgent.tsx`.

JavaScript string primitives that the source relies on (`String.split` with a
one-character separator, `String.trim`, `String.replace` with a string pattern,
which replaces only the first occurrence, and `Number` conversion) are modelled
over `List Char`, structurally recursive so that every definition evaluates in
the kernel.  `Number` is modelled on (whitespace-trimmed, optionally signed)
integer literals, with the empty string converting to `0` as in JavaScript;
fractional, exponent and hexadecimal forms — which never denote clock times in
the `HH:MM` / `HHhMM` data model — are treated as unparsable (`none` = `NaN`).
-/

/-- JS `s.split(sep)` for a one-character separator, on the character list:
splits on every occurrence, keeping empty fragments (`"".split(',')` is `[""]`). -/
def splitOnChar (sep : Char) : List Char → List (List Char)
  | [] => [[]]
  | c :: rest =>
    if c = sep then [] :: splitOnChar sep rest
    else
      match splitOnChar sep rest with
      | [] => [[c]]
      | h :: t => (c :: h) :: t

/-- JS `String.prototype.trim` on the character list. -/
def trimChars (cs : List Char) : List Char :=
  ((cs.dropWhile Char.isWhitespace).reverse.dropWhile Char.isWhitespace).reverse

/-- JS `s.replace(a, b)` for one-character `a`, `b`: replaces only the FIRST
occurrence. -/
def replaceFirstChar (a b : Char) : List Char → List Char
  | [] => []
  | c :: cs => if c = a then b :: cs else c :: replaceFirstChar a b cs

/-- JS `s.split(sep)` lifted to `String`. -/
def jsSplit (sep : Char) (s : String) : List String :=
  (splitOnChar sep s.toList).map String.mk

/-- JS `s.trim()` lifted to `String`. -/
def jsTrim (s : String) : String :=
  String.mk (trimChars s.toList)

/-- Digit-string value, most significant digit first. -/
def digitsToNat (l : List Char) : Nat :=
  l.foldl (fun acc c => acc * 10 + (c.toNat - 48)) 0

/-- JS `Number(s)` restricted to integer numerals: trims whitespace, converts
the empty string to `0`, an optionally signed digit string to its value, and
anything else to `NaN` (`none`). -/
def jsNumber (s : String) : Option Int :=
  match trimChars s.toList with
  | [] => some 0
  | '+' :: rest =>
    if rest ≠ [] ∧ rest.all Char.isDigit then some (digitsToNat rest) else none
  | '-' :: rest =>
    if rest ≠ [] ∧ rest.all Char.isDigit then some (-(digitsToNat rest : Int)) else none
  | cs =>
    if cs.all Char.isDigit then some (digitsToNat cs) else none

/-- The `shortDayToFull` lookup map: three-letter abbreviation to full name. -/
def shortDayToFull : String → Option String
  | "Mon" => some "Monday"
  | "Tue" => some "Tuesday"
  | "Wed" => some "Wednesday"
  | "Thu" => some "Thursday"
  | "Fri" => some "Friday"
  | "Sat" => some "Saturday"
  | "Sun" => some "Sunday"
  | _ => none

/-- `dayOrderArray`: canonical Monday-first order of abbreviations. -/
def dayOrderArray : List String :=
  ["Mon", "Tue", "Wed", "Thu", "Fri", "Sat", "Sun"]

/-- `fullDaysOfWeek`: the seven canonical full day names, Monday first. -/
def fullDaysOfWeek : List String :=
  ["Monday", "Tuesday", "Wednesday", "Thursday", "Friday", "Saturday", "Sunday"]

/-- `dayFullNameMap`: JS `Date.getDay()` index (0 = Sunday) to full name.
The `getDay` contract keeps the argument in `0..6`; the catch-all mirrors the
JS map yielding `undefined` outside it. -/
def dayFullNameMap : Nat → String
  | 0 => "Sunday"
  | 1 => "Monday"
  | 2 => "Tuesday"
  | 3 => "Wednesday"
  | 4 => "Thursday"
  | 5 => "Friday"
  | 6 => "Saturday"
  | _ => "undefined"

/-- JS `array.indexOf` on a list of strings: `some` index of first match. -/
def indexOfString (target : String) : List String → Option Nat
  | [] => none
  | x :: xs =>
    if x = target then some 0 else (indexOfString target xs).map (· + 1)

/-- One day token's contribution to the scheduled-day set, from the loop body
of `isShowOnAir` (identical in `normaliseDaysForSelector`): a token containing
`-` is a range of abbreviations expanded when both ends resolve and the start
index is at most the end index; otherwise abbreviation lookup, then verbatim
acceptance of exact full names; unresolvable tokens contribute nothing. -/
def dayTokenDays (part : String) : List String :=
  if part.toList.contains '-' then
    let pieces := jsSplit '-' part
    let startShort := pieces.headD ""
    let endShort := (pieces.drop 1).headD ""
    match indexOfString startShort dayOrderArray, indexOfString endShort dayOrderArray with
    | some startIndex, some endIndex =>
      if startIndex ≤ endIndex then
        (((List.range (endIndex + 1 - startIndex)).map (startIndex + ·)).filterMap
          fun i => (dayOrderArray.get? i).bind shortDayToFull)
      else []
    | _, _ => []
  else
    match shortDayToFull part with
    | some dayName => [dayName]
    | none => if fullDaysOfWeek.contains part then [part] else []

/-- The scheduled-day set built by `isShowOnAir` from the day descriptor:
split on `,`, trim, drop empty tokens, union of the tokens' contributions
(JS `Set` membership is list membership here; insertion order is kept). -/
def resolveDays (formattedDayString : String) : List String :=
  let parts := ((jsSplit ',' formattedDayString).map jsTrim).filter (· != "")
  parts.foldl (fun acc part => acc ++ dayTokenDays part) []

/-- `startTimeStr.replace('h', ':')` then `split(':')` then `Number` on the
first two components, `hour*60 + minute`; `none` when either component is
`NaN` (including a missing second component, JS `Number(undefined)`). -/
def parseTimeToMinutes (v : String) : Option Int :=
  match jsSplit ':' (String.mk (replaceFirstChar 'h' ':' v.toList)) with
  | [] => none
  | [_] => none
  | a :: b :: _ =>
    match jsNumber a, jsNumber b with
    | some h, some m => some (h * 60 + m)
    | _, _ => none

/-- A `RadioShow` row as `isShowOnAir` reads it: the expanded `Day` field, the
raw `Day(s) of Week` field, and the `Start` / `End` time strings; `none`
models a field absent from the sheet row (JS `undefined`). -/
structure RadioShow where
  Day : Option String
  DaysOfWeek : Option String
  Start : Option String
  End : Option String

/-- JS `String(v)` on a possibly missing string field (`??`-style extraction;
the source never reaches it with `none`, so `""` for `none` is inert). -/
def optStr : Option String → String
  | none => ""
  | some s => s

/-- JS falsiness of a possibly missing string field: `undefined` and `""`. -/
def falsyOpt : Option String → Bool
  | none => true
  | some s => s == ""

/-- `String((show as any).Day ?? show['Day(s) of Week'] ?? '')`: the expanded
field when present (even if empty), else the raw field, else `""`. -/
def dayDescriptor (s : RadioShow) : String :=
  match s.Day with
  | some d => d
  | none => optStr s.DaysOfWeek

/-- A point in time as the algorithm reads it off a JS `Date`: `getDay()`
(0 = Sunday), `getHours()`, `getMinutes()`. -/
structure PointInTime where
  getDay : Fin 7
  getHours : Nat
  getMinutes : Nat

/-- `date.getHours() * 60 + date.getMinutes()`: minute of day. -/
def currentTimeOf (p : PointInTime) : Int :=
  (p.getHours : Int) * 60 + (p.getMinutes : Int)

/-- `isShowOnAir` from the registration-analytics module: true when the show's
recurring weekly slot contains the given point in time, handling day-range
descriptors and slots that cross midnight. -/
def isShowOnAir (s : RadioShow) (p : PointInTime) : Bool :=
  let formattedDayString := dayDescriptor s
  if formattedDayString == "" || falsyOpt s.Start || falsyOpt s.End then false
  else
    let scheduledDays := resolveDays formattedDayString
    let currentDayName := dayFullNameMap p.getDay.val
    let previousDayName := dayFullNameMap ((p.getDay.val + 6) % 7)
    match parseTimeToMinutes (optStr s.Start), parseTimeToMinutes (optStr s.End) with
    | some startTime, some endTime =>
      let currentTime := currentTimeOf p
      if endTime < startTime then
        (scheduledDays.contains currentDayName && decide (startTime ≤ currentTime))
          || (scheduledDays.contains previousDayName && decide (currentTime < endTime))
      else
        scheduledDays.contains currentDayName && decide (startTime ≤ currentTime)
          && decide (currentTime < endTime)
    | _, _ => false

example : resolveDays "Mon-Wed, Friday" = ["Monday", "Tuesday", "Wednesday", "Friday"] := by decide

example : parseTimeToMinutes "09h30" = some 570 := by decide

example : parseTimeToMinutes "" = none := by decide

example :
    isShowOnAir ⟨some "Fri-Sat", none, some "22:00", some "02:00"⟩ ⟨6, 1, 30⟩ = true := by decide

example :
    isShowOnAir ⟨some "Fri-Sat", none, some "22:00", some "02:00"⟩ ⟨6, 3, 0⟩ = false := by decide

example :
    isShowOnAir ⟨some "Monday", none, some "09h00", some "12h00"⟩ ⟨1, 11, 59⟩ = true := by decide

example :
    isShowOnAir ⟨some "Monday", none, some "09h00", some "12h00"⟩ ⟨1, 12, 0⟩ = false := by decide

namespace WhatsAppAgent

/-!
The second, independently maintained copy of the matching algorithm, translated
from `components/WhatsAppAgent.tsx` (request analytics).  The module-level
helper constants and the function body are translated separately from that
file, not shared with the registration-analytics translation above, so that
the extensional-equality claim compares two genuine copies.
-/

/-- `shortDayToFull` as defined in `WhatsAppAgent.tsx`. -/
def shortDayToFull : String → Option String
  | "Mon" => some "Monday"
  | "Tue" => some "Tuesday"
  | "Wed" => some "Wednesday"
  | "Thu" => some "Thursday"
  | "Fri" => some "Friday"
  | "Sat" => some "Saturday"
  | "Sun" => some "Sunday"
  | _ => none

/-- `dayOrderArray` as defined in `WhatsAppAgent.tsx`. -/
def dayOrderArray : List String :=
  ["Mon", "Tue", "Wed", "Thu", "Fri", "Sat", "Sun"]

/-- `fullDaysOfWeek` as defined in `WhatsAppAgent.tsx`. -/
def fullDaysOfWeek : List String :=
  ["Monday", "Tuesday", "Wednesday", "Thursday", "Friday", "Saturday", "Sunday"]

/-- `dayFullNameMap` as defined in `WhatsAppAgent.tsx`. -/
def dayFullNameMap : Nat → String
  | 0 => "Sunday"
  | 1 => "Monday"
  | 2 => "Tuesday"
  | 3 => "Wednesday"
  | 4 => "Thursday"
  | 5 => "Friday"
  | 6 => "Saturday"
  | _ => "undefined"

/-- The day-token loop body of `WhatsAppAgent.tsx`'s `isShowOnAir`. -/
def dayTokenDays (part : String) : List String :=
  if part.toList.contains '-' then
    let pieces := jsSplit '-' part
    let startShort := pieces.headD ""
    let endShort := (pieces.drop 1).headD ""
    match indexOfString startShort dayOrderArray, indexOfString endShort dayOrderArray with
    | some startIndex, some endIndex =>
      if startIndex ≤ endIndex then
        (((List.range (endIndex + 1 - startIndex)).map (startIndex + ·)).filterMap
          fun i => (dayOrderArray.get? i).bind shortDayToFull)
      else []
    | _, _ => []
  else
    match shortDayToFull part with
    | some dayName => [dayName]
    | none => if fullDaysOfWeek.contains part then [part] else []

/-- The scheduled-day set of `WhatsAppAgent.tsx`'s `isShowOnAir`. -/
def resolveDays (formattedDayString : String) : List String :=
  let parts := ((jsSplit ',' formattedDayString).map jsTrim).filter (· != "")
  parts.foldl (fun acc part => acc ++ dayTokenDays part) []

/-- Time parsing of `WhatsAppAgent.tsx`'s `isShowOnAir`. -/
def parseTimeToMinutes (v : String) : Option Int :=
  match jsSplit ':' (String.mk (replaceFirstChar 'h' ':' v.toList)) with
  | [] => none
  | [_] => none
  | a :: b :: _ =>
    match jsNumber a, jsNumber b with
    | some h, some m => some (h * 60 + m)
    | _, _ => none

/-- `String((show as any).Day ?? show['Day(s) of Week'] ?? '')` in
`WhatsAppAgent.tsx`. -/
def dayDescriptor (s : RadioShow) : String :=
  match s.Day with
  | some d => d
  | none => optStr s.DaysOfWeek

/-- `isShowOnAir` as defined in `WhatsAppAgent.tsx` (request analytics). -/
def isShowOnAir (s : RadioShow) (p : PointInTime) : Bool :=
  let formattedDayString := dayDescriptor s
  if formattedDayString == "" || falsyOpt s.Start || falsyOpt s.End then false
  else
    let scheduledDays := resolveDays formattedDayString
    let currentDayName := dayFullNameMap p.getDay.val
    let previousDayName := dayFullNameMap ((p.getDay.val + 6) % 7)
    match parseTimeToMinutes (optStr s.Start), parseTimeToMinutes (optStr s.End) with
    | some startTime, some endTime =>
      let currentTime := currentTimeOf p
      if endTime < startTime then
        (scheduledDays.contains currentDayName && decide (startTime ≤ currentTime))
          || (scheduledDays.contains previousDayName && decide (currentTime < endTime))
      else
        scheduledDays.contains currentDayName && decide (startTime ≤ currentTime)
          && decide (currentTime < endTime)
    | _, _ => false

end WhatsAppAgent

/-! ### Helper lemmas -/

theorem parseTimeToMinutes_empty : parseTimeToMinutes "" = none := by decide

theorem resolveDays_empty : resolveDays "" = [] := by decide

theorem falsyOpt_of_parse {o : Option String} {r : Int}
    (h : parseTimeToMinutes (optStr o) = some r) : falsyOpt o = false := by
  match o with
  | none => rw [show optStr none = "" from rfl, parseTimeToMinutes_empty] at h; cases h
  | some str =>
    by_cases hstr : str = ""
    · subst hstr
      rw [show optStr (some "") = "" from rfl, parseTimeToMinutes_empty] at h; cases h
    · simp [falsyOpt, hstr]

/-- Behaviour of `isShowOnAir` once both time fields parse: the branch on
`endTime < startTime` over the resolved day set. -/
theorem isShowOnAir_run (s : RadioShow) (p : PointInTime) (st et : Int)
    (hs : parseTimeToMinutes (optStr s.Start) = some st)
    (he : parseTimeToMinutes (optStr s.End) = some et) :
    isShowOnAir s p =
      (if et < st then
        ((resolveDays (dayDescriptor s)).contains (dayFullNameMap p.getDay.val)
            && decide (st ≤ currentTimeOf p))
          || ((resolveDays (dayDescriptor s)).contains (dayFullNameMap ((p.getDay.val + 6) % 7))
            && decide (currentTimeOf p < et))
      else
        (resolveDays (dayDescriptor s)).contains (dayFullNameMap p.getDay.val)
          && decide (st ≤ currentTimeOf p) && decide (currentTimeOf p < et)) := by
  have hSf : falsyOpt s.Start = false := falsyOpt_of_parse hs
  have hEf : falsyOpt s.End = false := falsyOpt_of_parse he
  unfold isShowOnAir
  rw [hSf, hEf, hs, he]
  by_cases hd : dayDescriptor s = ""
  · rw [hd, resolveDays_empty]
    simp [List.contains]
  · have hbe : (dayDescriptor s == "") = false := by simp [hd]
    simp [hbe]

/-- C1: for a show whose parsed end time is strictly below its parsed start
time (a slot crossing midnight), `isShowOnAir` returns true iff either the
point's weekday is in the resolved day set and its minute-of-day is at least
`startMinutes`, or the weekday immediately preceding the point's weekday
(Sunday wrapping back to Saturday) is in the resolved day set and the
minute-of-day is below `endMinutes`; hence a point one minute before the end
on the day after a listed start day matches, and a point exactly at the end
on that day does not. -/
theorem isShowOnAir_overnight_iff (s : RadioShow) (p : PointInTime) (st et : Int)
    (hs : parseTimeToMinutes (optStr s.Start) = some st)
    (he : parseTimeToMinutes (optStr s.End) = some et)
    (hlt : et < st) :
    isShowOnAir s p = true ↔
      ((dayFullNameMap p.getDay.val ∈ resolveDays (dayDescriptor s)
          ∧ st ≤ currentTimeOf p)
        ∨ (dayFullNameMap ((p.getDay.val + 6) % 7) ∈ resolveDays (dayDescriptor s)
          ∧ currentTimeOf p < et)) := by
  rw [isShowOnAir_run s p st et hs he, if_pos hlt]
  simp [List.contains]

/-- Witness for C1: `"Fri-Sat"` 22:00–02:00 is on air Saturday 01:30 (the
previous day, Friday, is scheduled and 90 < 120). -/
theorem isShowOnAir_overnight_iff_witness :
    isShowOnAir ⟨some "Fri-Sat", none, some "22:00", some "02:00"⟩ ⟨6, 1, 30⟩ = true :=
  (isShowOnAir_overnight_iff ⟨some "Fri-Sat", none, some "22:00", some "02:00"⟩ ⟨6, 1, 30⟩
      1320 120 (by decide) (by decide) (by decide)).mpr (Or.inr (by decide))

/-- C2: for a show whose parsed start time is strictly below its parsed end
time (a same-day slot) and whose resolved day set contains the point's
weekday, `isShowOnAir` returns true exactly when
`startMinutes ≤ minute-of-day < endMinutes` (start inclusive, end
exclusive). -/
theorem isShowOnAir_sameday_iff (s : RadioShow) (p : PointInTime) (st et : Int)
    (hs : parseTimeToMinutes (optStr s.Start) = some st)
    (he : parseTimeToMinutes (optStr s.End) = some et)
    (hlt : st < et)
    (hmem : dayFullNameMap p.getDay.val ∈ resolveDays (dayDescriptor s)) :
    isShowOnAir s p = true ↔ (st ≤ currentTimeOf p ∧ currentTimeOf p < et) := by
  rw [isShowOnAir_run s p st et hs he, if_neg (by omega)]
  simp [List.contains, hmem]

/-- Witness for C2: `"Monday"` 09h00–12h00 is on air Monday 11:59
(540 ≤ 719 < 720). -/
theorem isShowOnAir_sameday_iff_witness :
    isShowOnAir ⟨some "Monday", none, some "09h00", some "12h00"⟩ ⟨1, 11, 59⟩ = true :=
  (isShowOnAir_sameday_iff ⟨some "Monday", none, some "09h00", some "12h00"⟩ ⟨1, 11, 59⟩
      540 720 (by decide) (by decide) (by decide) (by decide)).mpr (by decide)

/-- C10: a show whose parsed start and end times are equal (a zero-length
slot) is taken through the not-crossing-midnight branch, whose inclusive
start / exclusive end window is empty, so `isShowOnAir` returns false for
every point in time; it is not read as a 24-hour slot. -/
theorem isShowOnAir_zero_length (s : RadioShow) (p : PointInTime) (st : Int)
    (hs : parseTimeToMinutes (optStr s.Start) = some st)
    (he : parseTimeToMinutes (optStr s.End) = some st) :
    isShowOnAir s p = false := by
  rw [isShowOnAir_run s p st st hs he, if_neg (lt_irrefl st)]
  by_cases h1 : st ≤ currentTimeOf p
  · simp [decide_eq_false (not_lt.mpr h1)]
  · simp [h1]

/-- Witness for C10: `"Monday"` 10:00–10:00 is not on air at Monday 10:00. -/
theorem isShowOnAir_zero_length_witness :
    isShowOnAir ⟨some "Monday", none, some "10:00", some "10:00"⟩ ⟨1, 10, 0⟩ = false :=
  isShowOnAir_zero_length ⟨some "Monday", none, some "10:00", some "10:00"⟩ ⟨1, 10, 0⟩
    600 (by decide) (by decide)

/-! ### Splitting and replacement lemmas for the descriptor / time parsers -/

theorem splitOnChar_ne_nil (sep : Char) (cs : List Char) : splitOnChar sep cs ≠ [] := by
  cases cs with
  | nil => simp [splitOnChar]
  | cons c rest =>
    simp only [splitOnChar]
    by_cases h : c = sep
    · simp [h]
    · simp only [if_neg h]
      cases splitOnChar sep rest <;> simp

theorem splitOnChar_append (sep : Char) (xs ys : List Char) :
    splitOnChar sep (xs ++ sep :: ys) = splitOnChar sep xs ++ splitOnChar sep ys := by
  induction xs with
  | nil => simp [splitOnChar]
  | cons c rest ih =>
    by_cases h : c = sep
    · simp [splitOnChar, h, ih]
    · rcases hv : splitOnChar sep rest with _ | ⟨h0, t0⟩
      · exact absurd hv (splitOnChar_ne_nil sep rest)
      · simp [splitOnChar, if_neg h, ih, hv]

theorem splitOnChar_of_not_mem (sep : Char) (cs : List Char) (h : sep ∉ cs) :
    splitOnChar sep cs = [cs] := by
  induction cs with
  | nil => rfl
  | cons c rest ih =>
    rw [List.mem_cons] at h
    push_neg at h
    have hne : ¬ c = sep := fun he => h.1 he.symm
    simp [splitOnChar, hne, ih h.2]

theorem replaceFirstChar_of_not_mem (a b : Char) (cs : List Char) (h : a ∉ cs) :
    replaceFirstChar a b cs = cs := by
  induction cs with
  | nil => rfl
  | cons c rest ih =>
    rw [List.mem_cons] at h
    push_neg at h
    have hne : ¬ c = a := fun he => h.1 he.symm
    simp [replaceFirstChar, hne, ih h.2]

theorem replaceFirstChar_append (a b : Char) (xs ys : List Char) (h : a ∉ xs) :
    replaceFirstChar a b (xs ++ a :: ys) = xs ++ b :: ys := by
  induction xs with
  | nil => simp [replaceFirstChar]
  | cons c rest ih =>
    rw [List.mem_cons] at h
    push_neg at h
    have hne : ¬ c = a := fun he => h.1 he.symm
    simp [replaceFirstChar, hne, ih h.2]

/-- The canonical three-letter abbreviation at Monday-first index `i`. -/
def dayAbbrev (i : Fin 7) : String :=
  dayOrderArray.getD i.val ""

/-- C3: a range token of two abbreviations joined by `-` resolves to every
canonical day name in the inclusive Monday-first index range when the start
index is at most the end index, and to no days at all when the start index
exceeds the end index; in particular `"Mon-Wed"` gives exactly Monday,
Tuesday, Wednesday and `"Wed-Mon"` gives the empty set. -/
theorem resolveDays_range_token :
    resolveDays "Mon-Wed" = ["Monday", "Tuesday", "Wednesday"] ∧
    resolveDays "Wed-Mon" = [] ∧
    ∀ i j : Fin 7,
      resolveDays (dayAbbrev i ++ "-" ++ dayAbbrev j) =
        if i.val ≤ j.val then (fullDaysOfWeek.drop i.val).take (j.val + 1 - i.val)
        else [] := by
  refine ⟨by decide, by decide, ?_⟩
  decide

theorem foldl_append_days (f : String → List String) (l : List String) (acc : List String) :
    l.foldl (fun a x => a ++ f x) acc = acc ++ l.foldl (fun a x => a ++ f x) [] := by
  induction l generalizing acc with
  | nil => simp
  | cons x xs ih =>
    rw [List.foldl_cons, List.foldl_cons, ih (acc ++ f x), ih ([] ++ f x)]
    simp

theorem toList_append_three (s t : String) (c : Char) :
    (s ++ String.mk [c] ++ t).toList = s.toList ++ c :: t.toList := by
  show (s ++ String.mk [c] ++ t).data = s.data ++ c :: t.data
  simp [String.data_append]

/-- C4: resolution of a comma-separated mixed descriptor is the union (here:
concatenation, in token order) of each token's contribution; a token without
`-` resolves via abbreviation lookup, then verbatim acceptance only of exact
canonical full names, and otherwise contributes nothing; in particular
`"Mon-Wed, Friday"` resolves to exactly Monday, Tuesday, Wednesday, Friday. -/
theorem resolveDays_mixed_descriptor :
    resolveDays "Mon-Wed, Friday" = ["Monday", "Tuesday", "Wednesday", "Friday"] ∧
    (∀ s t : String, resolveDays (s ++ "," ++ t) = resolveDays s ++ resolveDays t) ∧
    (∀ tok : String, ',' ∉ tok.toList → jsTrim tok = tok → tok ≠ "" →
      tok.toList.contains '-' = false →
      resolveDays tok =
        (match shortDayToFull tok with
         | some d => [d]
         | none => if fullDaysOfWeek.contains tok then [tok] else [])) := by
  refine ⟨by decide, ?_, ?_⟩
  · intro s t
    unfold resolveDays jsSplit
    rw [show ("," : String) = String.mk [','] from rfl, toList_append_three,
      splitOnChar_append]
    rw [List.map_append, List.map_append, List.filter_append, List.foldl_append,
      foldl_append_days]
  · intro tok hcomma htrim hne hdash
    unfold resolveDays jsSplit
    rw [splitOnChar_of_not_mem ',' tok.toList hcomma]
    have hmk : String.mk tok.toList = tok := rfl
    have hbne : (tok != "") = true := by
      simp [bne_iff_ne, hne]
    simp only [List.map_cons, List.map_nil, hmk, htrim, List.filter_cons, hbne,
      List.filter_nil, if_true, eq_self_iff_true, List.foldl_cons, List.foldl_nil,
      List.nil_append]
    show dayTokenDays tok = _
    unfold dayTokenDays
    rw [hdash]
    simp

/-- Witness for C4: the single-token clause at `"Friday"`, an exact canonical
full name that the abbreviation lookup misses. -/
theorem resolveDays_mixed_descriptor_witness :
    resolveDays "Friday" =
      (match shortDayToFull "Friday" with
       | some d => [d]
       | none => if fullDaysOfWeek.contains "Friday" then ["Friday"] else []) :=
  resolveDays_mixed_descriptor.2.2 "Friday" (by decide) (by decide) (by decide) (by decide)

/-- C5: an empty day descriptor (after the field fallback) or a missing start
or end time always yields `false`; and on every input the function yields a
boolean — in this embedding `isShowOnAir` is a total function into `Bool`,
every malformed-input path degrading to `false` rather than failing. -/
theorem isShowOnAir_invalid_false :
    (∀ (s : RadioShow) (p : PointInTime),
      dayDescriptor s = "" ∨ s.Start = none ∨ s.End = none → isShowOnAir s p = false) ∧
    (∀ (s : RadioShow) (p : PointInTime),
      isShowOnAir s p = true ∨ isShowOnAir s p = false) := by
  constructor
  · intro s p h
    unfold isShowOnAir
    rcases h with h | h | h
    · simp [h]
    · simp [h, falsyOpt]
    · simp [h, falsyOpt]
  · intro s p
    cases hb : isShowOnAir s p
    · exact Or.inr rfl
    · exact Or.inl rfl

/-- Witness for C5: a show whose expanded day field is the empty string is
never on air. -/
theorem isShowOnAir_invalid_false_witness :
    isShowOnAir ⟨some "", some "Mon", some "10:00", some "11:00"⟩ ⟨1, 10, 30⟩ = false :=
  isShowOnAir_invalid_false.1 ⟨some "", some "Mon", some "10:00", some "11:00"⟩
    ⟨1, 10, 30⟩ (Or.inl rfl)

theorem not_mem_append_cons {x y : Char} {xs ys : List Char} (hx : x ∉ xs) (hy : x ∉ ys)
    (hne : x ≠ y) : x ∉ xs ++ y :: ys := by
  intro hmem
  rcases List.mem_append.mp hmem with h | h
  · exact hx h
  · rcases List.mem_cons.mp h with h | h
    · exact hne h
    · exact hy h

/-- C6: time strings are parsed to minutes-since-midnight as
`hour*60 + minute`, with `:` or `h` accepted as the separator and only the
first two numeric components read (seconds ignored); and whenever either time
string fails to parse as two integers, `isShowOnAir` is `false` for every
point in time. -/
theorem parseTime_spec :
    (∀ a b : String, 'h' ∉ a.toList → 'h' ∉ b.toList →
      parseTimeToMinutes (a ++ "h" ++ b) = parseTimeToMinutes (a ++ ":" ++ b)) ∧
    (∀ a b : String, 'h' ∉ a.toList → ':' ∉ a.toList → 'h' ∉ b.toList → ':' ∉ b.toList →
      ∀ H M : Int, jsNumber a = some H → jsNumber b = some M →
      parseTimeToMinutes (a ++ ":" ++ b) = some (H * 60 + M)) ∧
    (∀ a b c : String, 'h' ∉ a.toList → ':' ∉ a.toList → 'h' ∉ b.toList → ':' ∉ b.toList →
      'h' ∉ c.toList →
      parseTimeToMinutes (a ++ ":" ++ b ++ ":" ++ c) = parseTimeToMinutes (a ++ ":" ++ b)) ∧
    (∀ (s : RadioShow) (p : PointInTime),
      parseTimeToMinutes (optStr s.Start) = none ∨ parseTimeToMinutes (optStr s.End) = none →
      isShowOnAir s p = false) := by
  refine ⟨?_, ?_, ?_, ?_⟩
  · intro a b ha hb
    unfold parseTimeToMinutes
    rw [show ("h" : String) = String.mk ['h'] from rfl, toList_append_three,
      show (":" : String) = String.mk [':'] from rfl, toList_append_three,
      replaceFirstChar_append 'h' ':' a.toList b.toList ha,
      replaceFirstChar_of_not_mem 'h' ':' (a.toList ++ ':' :: b.toList)
        (not_mem_append_cons ha hb (by decide))]
  · intro a b ha ha2 hb hb2 H M hH hM
    unfold parseTimeToMinutes
    rw [show (":" : String) = String.mk [':'] from rfl, toList_append_three,
      replaceFirstChar_of_not_mem 'h' ':' (a.toList ++ ':' :: b.toList)
        (not_mem_append_cons ha hb (by decide))]
    unfold jsSplit
    rw [show (String.mk (a.toList ++ ':' :: b.toList)).toList = a.toList ++ ':' :: b.toList
        from rfl,
      splitOnChar_append, splitOnChar_of_not_mem ':' a.toList ha2,
      splitOnChar_of_not_mem ':' b.toList hb2]
    show (match jsNumber (String.mk a.toList), jsNumber (String.mk b.toList) with
      | some h, some m => some (h * 60 + m)
      | _, _ => none) = some (H * 60 + M)
    rw [show String.mk a.toList = a from rfl, show String.mk b.toList = b from rfl, hH, hM]
  · intro a b c ha ha2 hb hb2 hc
    unfold parseTimeToMinutes
    have hnoh : 'h' ∉ a.toList ++ ':' :: b.toList :=
      not_mem_append_cons ha hb (by decide)
    rw [show (":" : String) = String.mk [':'] from rfl, toList_append_three,
      toList_append_three,
      replaceFirstChar_of_not_mem 'h' ':'
        ((a.toList ++ ':' :: b.toList) ++ ':' :: c.toList)
        (not_mem_append_cons hnoh hc (by decide)),
      replaceFirstChar_of_not_mem 'h' ':' (a.toList ++ ':' :: b.toList) hnoh]
    unfold jsSplit
    rw [show (String.mk ((a.toList ++ ':' :: b.toList) ++ ':' :: c.toList)).toList
        = (a.toList ++ ':' :: b.toList) ++ ':' :: c.toList from rfl,
      show (String.mk (a.toList ++ ':' :: b.toList)).toList
        = a.toList ++ ':' :: b.toList from rfl,
      splitOnChar_append, splitOnChar_append, splitOnChar_of_not_mem ':' a.toList ha2,
      splitOnChar_of_not_mem ':' b.toList hb2]
    rfl
  · intro s p h
    unfold isShowOnAir
    split
    · rcases h with h | h <;> simp_all
    · simp

/-- Witness for C6: the `hour*60 + minute` clause at `"09" : "30"`. -/
theorem parseTime_spec_witness :
    parseTimeToMinutes ("09" ++ ":" ++ "30") = some (9 * 60 + 30) :=
  parseTime_spec.2.1 "09" "30" (by decide) (by decide) (by decide) (by decide)
    9 30 (by decide) (by decide)

/-- C7: the two independently maintained copies of the matching algorithm —
`isShowOnAir` in the registration-analytics module and `isShowOnAir` in
`WhatsAppAgent.tsx` — are extensionally equal: on every show record and every
point in time they return the same boolean. -/
theorem isShowOnAir_copies_agree :
    ∀ (s : RadioShow) (p : PointInTime), isShowOnAir s p = WhatsAppAgent.isShowOnAir s p :=
  fun _ _ => rfl

/-- C8: the day descriptor prefers the expanded `Day` field when present and
otherwise falls back to the raw `Day(s) of Week` field; when `Day` is absent,
the outcome of `isShowOnAir` is determined by the raw field (together with
the time fields) alone. -/
theorem dayDescriptor_fallback :
    (∀ (s : RadioShow) (d : String), s.Day = some d → dayDescriptor s = d) ∧
    (∀ s : RadioShow, s.Day = none → dayDescriptor s = optStr s.DaysOfWeek) ∧
    (∀ (s t : RadioShow) (p : PointInTime), s.Day = none → t.Day = none →
      s.DaysOfWeek = t.DaysOfWeek → s.Start = t.Start → s.End = t.End →
      isShowOnAir s p = isShowOnAir t p) := by
  refine ⟨?_, ?_, ?_⟩
  · intro s d h
    simp [dayDescriptor, h]
  · intro s h
    simp [dayDescriptor, h]
  · intro s t p h1 h2 h3 h4 h5
    cases s
    cases t
    simp_all

/-- Witness for C8: `Day = "Monday"` wins over the raw field `"Mon"`. -/
theorem dayDescriptor_fallback_witness :
    dayDescriptor ⟨some "Monday", some "Mon", some "09:00", some "10:00"⟩ = "Monday" :=
  dayDescriptor_fallback.1 ⟨some "Monday", some "Mon", some "09:00", some "10:00"⟩
    "Monday" rfl

/-- C9: `isShowOnAir` is deterministic and pure — as a total function of the
show record and the point in time, two calls on identical inputs yield
identical results; the embedding has no other state to read or write. -/
theorem isShowOnAir_deterministic (s₁ s₂ : RadioShow) (p₁ p₂ : PointInTime)
    (hs : s₁ = s₂) (hp : p₁ = p₂) :
    isShowOnAir s₁ p₁ = isShowOnAir s₂ p₂ := by
  rw [hs, hp]

/-- Witness for C9: two identical calls on the Monday-morning show agree. -/
theorem isShowOnAir_deterministic_witness :
    isShowOnAir ⟨some "Monday", none, some "09h00", some "12h00"⟩ ⟨1, 11, 59⟩ =
      isShowOnAir ⟨some "Monday", none, some "09h00", some "12h00"⟩ ⟨1, 11, 59⟩ :=
  isShowOnAir_deterministic ⟨some "Monday", none, some "09h00", some "12h00"⟩
    ⟨some "Monday", none, some "09h00", some "12h00"⟩ ⟨1, 11, 59⟩ ⟨1, 11, 59⟩ rfl rfl
